import Mathlib

/-!
Verification of the layout and connection-resolution engine of
`src/chart_script.py` (a layered-architecture diagram generator).

The script builds a list of draw primitives for a fixed layer stack:
for each layer it emits one background bar and one bar per component
(equal partition of an 8-unit span starting at offset 1, each block 80%
of its share with 10% padding on each side); for each connection whose
endpoints are both declared layer names it emits one two-point connector
trace; finally it emits one text primitive per protocol label from three
parallel lists.  Numeric values are modelled as exact rationals.
-/

/-- Mirrors one entry of `layers_data` in the script: a named layer with an
ordered component list and a display color. -/
structure LayerSpec where
  name : String
  components : List String
  color : String
deriving DecidableEq

instance : Inhabited LayerSpec := ⟨⟨"", [], ""⟩⟩

/-- Mirrors one tuple of `flow_connections`: source layer name, destination
layer name, protocol label and the caller-supplied anchor column. -/
structure ConnectionSpec where
  from_layer : String
  to_layer : String
  protocol : String
  x_pos : ℚ
deriving DecidableEq

instance : Inhabited ConnectionSpec := ⟨⟨"", "", "", 0⟩⟩

/-- Exact transcription of the `layers_data` literal of the script. -/
def layers_data : List LayerSpec :=
  [ ⟨"Client Apps", ["Web Browser", "Mobile App", "Desktop App"], "#1FB8CD"⟩,
    ⟨"Load Balancer", ["NGINX/AWS ALB"], "#DB4545"⟩,
    ⟨"WebSocket Srvs", ["Socket.io Srv1", "Socket.io Srv2", "Socket.io SrvN"], "#2E8B57"⟩,
    ⟨"App Servers", ["Node.js+Exp 1", "Node.js+Exp 2", "Node.js+Exp N"], "#5D878F"⟩,
    ⟨"Redis Cache", ["Redis Cluster"], "#D2BA4C"⟩,
    ⟨"Database", ["MongoDB", "PostgreSQL"], "#B4413C"⟩,
    ⟨"File Storage", ["AWS S3"], "#964325"⟩ ]

/-- Mirrors `y_positions = list(range(len(layers_data))); y_positions.reverse()`:
the vertical slot list, top-to-bottom. -/
def y_positions (layers : List LayerSpec) : List ℕ :=
  (List.range layers.length).reverse

/-- The slot assignment of the Layer Stack Builder: layer at declaration
index `i` is paired with display index `y_positions[i] = n - 1 - i`
(the script pairs `layer` with `y_positions[i]` in its enumerate loop). -/
def buildSlots (layers : List LayerSpec) : List (String × ℕ) :=
  (layers.zip (y_positions layers)).map (fun p => (p.1.name, p.2))

/-- Mirrors `component_width = 8 / max(num_components, 1)` (line 38). -/
def component_width (n : ℕ) : ℚ :=
  8 / ((max n 1 : ℕ) : ℚ)

/-- A component bar of the script as geometry: drawn width `x=[cw*0.8]` with
base `x_offset - cw*0.4` where `x_offset = 1 + j*cw + cw/2` (lines 40-47). -/
structure ComponentBlock where
  component : String
  layer : String
  xStart : ℚ
  width : ℚ
deriving DecidableEq

instance : Inhabited ComponentBlock := ⟨⟨"", "", 0, 0⟩⟩

/-- The per-layer component loop (lines 40-54): for each component at index
`j`, `x_offset = 1 + j*cw + cw/2`, bar base `x_offset - cw*0.4`, bar width
`cw * 0.8`. -/
def resolveComponents (layer : LayerSpec) : List ComponentBlock :=
  let cw := component_width layer.components.length
  layer.components.enum.map (fun jc =>
    let x_offset : ℚ := 1 + (jc.1 : ℚ) * cw + cw / 2
    { component := jc.2
      layer := layer.name
      xStart := x_offset - cw * (4 / 10)
      width := cw * (8 / 10) })

/-- A connector scatter trace of the script (lines 74-86): two x values, two
categorical y values (layer names), marker symbols and sizes, hover label. -/
structure ConnectorTrace where
  x : List ℚ
  y : List String
  marker_symbols : List String
  marker_sizes : List ℚ
  hover : String
deriving DecidableEq

/-- The trace emitted for one resolved connection: `x=[x_pos, x_pos]`,
`y=[from_layer, to_layer]`, `symbol=[circle, triangle-down]`, `size=[4, 8]`. -/
def connTrace (c : ConnectionSpec) : ConnectorTrace :=
  { x := [c.x_pos, c.x_pos]
    y := [c.from_layer, c.to_layer]
    marker_symbols := ["circle", "triangle-down"]
    marker_sizes := [4, 8]
    hover := c.protocol }

/-- The guard of the connection loop (line 69):
`if from_layer in layer_names and to_layer in layer_names`. -/
def resolvable (layer_names : List String) (c : ConnectionSpec) : Bool :=
  layer_names.contains c.from_layer && layer_names.contains c.to_layer

/-- The connection loop (lines 66-86): walk the connections in order,
appending one trace per resolvable connection and skipping the rest. -/
def resolveConnections (layers : List LayerSpec) (conns : List ConnectionSpec) :
    List ConnectorTrace :=
  conns.foldl
    (fun acc c =>
      if resolvable (layers.map LayerSpec.name) c then acc ++ [connTrace c] else acc)
    []

/-- Display row of a layer name: the first declaration index found by lookup
(as `layer_names.index(...)` returns the first match), reversed into the
display order `n - 1 - i`; `none` when the name is not declared. -/
def rowOf (layers : List LayerSpec) (nm : String) : Option ℕ :=
  ((layers.map LayerSpec.name).findIdx? (fun s => s = nm)).map
    (fun i => layers.length - 1 - i)

/-- Draw primitives handed to the rendering collaborator, in emission order. -/
inductive Primitive where
  | bgBar (layer : String) (span : ℚ) (color : String)
  | compBar (block : ComponentBlock) (color : String)
  | connector (t : ConnectorTrace)
  | textLabel (x : ℚ) (y : String) (text : String)
deriving DecidableEq

/-- Recognizer for text-label primitives. -/
def isTextLabel : Primitive → Bool
  | Primitive.textLabel _ _ _ => true
  | _ => false

/-- Recognizer for background-bar primitives. -/
def isBgBar : Primitive → Bool
  | Primitive.bgBar _ _ _ => true
  | _ => false

/-- The body of the layer loop (lines 23-54): one background bar
(`x=[10]`, layer color) followed by the component bars of the layer. -/
def layerTraces (layer : LayerSpec) : List Primitive :=
  Primitive.bgBar layer.name 10 layer.color ::
    (resolveComponents layer).map (fun b => Primitive.compBar b layer.color)

/-- The protocol-label loop (lines 93-102): zip the three parallel lists and
emit one text primitive per entry, independent of layers and connections. -/
def labelTraces (protocols : List String) (xs : List ℚ) (ys : List String) :
    List Primitive :=
  ((protocols.zip xs).zip ys).map (fun p => Primitive.textLabel p.1.2 p.2 p.1.1)

/-- The full trace-emission pipeline of the script, in source order: layer
backgrounds with component bars, then connector traces, then text labels. -/
def pipeline (layers : List LayerSpec) (conns : List ConnectionSpec)
    (protocols : List String) (xs : List ℚ) (ys : List String) : List Primitive :=
  (layers.map layerTraces).flatten
    ++ (resolveConnections layers conns).map Primitive.connector
    ++ labelTraces protocols xs ys

/-- Exact transcription of the `flow_connections` literal (lines 57-64). -/
def flow_connections : List ConnectionSpec :=
  [ ⟨"Client Apps", "Load Balancer", "HTTPS/WSS", 95 / 10⟩,
    ⟨"Load Balancer", "WebSocket Srvs", "WSS", 95 / 10⟩,
    ⟨"WebSocket Srvs", "App Servers", "HTTP/RPC", 95 / 10⟩,
    ⟨"App Servers", "Redis Cache", "Redis Proto", 95 / 10⟩,
    ⟨"App Servers", "Database", "TCP/SQL", 75 / 10⟩,
    ⟨"App Servers", "File Storage", "HTTPS", 55 / 10⟩ ]

/-- Exact transcription of `protocol_labels` (line 89). -/
def protocol_labels : List String :=
  ["HTTPS/WSS", "WSS", "HTTP/RPC", "Redis Proto", "TCP/SQL", "HTTPS"]

/-- Exact transcription of `x_label_pos` (line 90). -/
def x_label_pos : List ℚ :=
  [97 / 10, 97 / 10, 97 / 10, 97 / 10, 77 / 10, 57 / 10]

/-- Exact transcription of `y_label_pos` (line 91). -/
def y_label_pos : List String :=
  ["Load Balancer", "WebSocket Srvs", "App Servers", "Redis Cache", "Database", "File Storage"]

/-- Running the pipeline twice on the same inputs, as a pair of runs. -/
def runPipelineTwice (layers : List LayerSpec) (conns : List ConnectionSpec)
    (protocols : List String) (xs : List ℚ) (ys : List String) :
    List Primitive × List Primitive :=
  (pipeline layers conns protocols xs ys, pipeline layers conns protocols xs ys)

/-- Statement of the C1 property for a layer list: the slot assignment pairs
the declared names, in order, with the display indices `(n-1), ..., 1, 0`;
the index column is exactly `[0, n-1]` with no repetition, the name column is
the declared name list, the first declared layer holds the highest index and
the last declared layer holds index `0`. -/
def slotBijectionSpec (layers : List LayerSpec) : Prop :=
  (buildSlots layers).map Prod.fst = layers.map LayerSpec.name ∧
  ((buildSlots layers).map Prod.fst).Nodup ∧
  (buildSlots layers).map Prod.snd = (List.range layers.length).reverse ∧
  (∀ k : ℕ, k ∈ (buildSlots layers).map Prod.snd ↔ k < layers.length) ∧
  ((buildSlots layers).map Prod.snd).Nodup ∧
  (buildSlots layers).head? = layers.head?.map (fun l => (l.name, layers.length - 1)) ∧
  (buildSlots layers).getLast? = layers.getLast?.map (fun l => (l.name, 0))

/-- Statement of the C3 property for one component block: slot width is
`8 / max(n, 1)`, the drawn width is 80% of the slot, and the left edge sits at
`1 + j * slot + slot * 0.1` (10% padding inside the slot). -/
def componentBlockSpec (layer : LayerSpec) (j : ℕ) : Prop :=
  component_width layer.components.length
      = 8 / ((max layer.components.length 1 : ℕ) : ℚ) ∧
  ((resolveComponents layer).getD j default).width
      = component_width layer.components.length * (8 / 10) ∧
  ((resolveComponents layer).getD j default).xStart
      = 1 + (j : ℚ) * component_width layer.components.length
          + component_width layer.components.length * (1 / 10) ∧
  ((resolveComponents layer).getD j default).component = layer.components.getD j "" ∧
  ((resolveComponents layer).getD j default).layer = layer.name

/-- Statement of the C4 property for a layer: blocks appear in component
declaration order, each block ends strictly before the next begins, every
block lies inside the span `[1, 9]`, and the drawn widths sum to at most the
8-unit span. -/
def blockLayoutSpec (layer : LayerSpec) : Prop :=
  (resolveComponents layer).map ComponentBlock.component = layer.components ∧
  (∀ j : ℕ, j + 1 < (resolveComponents layer).length →
    ((resolveComponents layer).getD j default).xStart
        + ((resolveComponents layer).getD j default).width
      < ((resolveComponents layer).getD (j + 1) default).xStart) ∧
  (∀ j : ℕ, j < (resolveComponents layer).length →
    1 ≤ ((resolveComponents layer).getD j default).xStart ∧
    ((resolveComponents layer).getD j default).xStart
        + ((resolveComponents layer).getD j default).width ≤ 9) ∧
  ((resolveComponents layer).map ComponentBlock.width).sum ≤ 8

/-- Statement of the C5 property for one resolved connection: its trace is
emitted, both points share the anchor column `x_pos`, the two y values name
the source and destination layers and each resolves to a display row held in
the slot assignment, and the markers are a small circle at the source and a
larger downward triangle at the destination. -/
def connectorGeometrySpec (layers : List LayerSpec) (conns : List ConnectionSpec)
    (c : ConnectionSpec) : Prop :=
  connTrace c ∈ resolveConnections layers conns ∧
  (connTrace c).x = [c.x_pos, c.x_pos] ∧
  (connTrace c).y = [c.from_layer, c.to_layer] ∧
  (∃ rf : ℕ, rowOf layers c.from_layer = some rf ∧ (c.from_layer, rf) ∈ buildSlots layers) ∧
  (∃ rt : ℕ, rowOf layers c.to_layer = some rt ∧ (c.to_layer, rt) ∈ buildSlots layers) ∧
  (connTrace c).marker_symbols = ["circle", "triangle-down"] ∧
  (connTrace c).marker_sizes = [4, 8] ∧
  (connTrace c).marker_sizes.getD 0 0 < (connTrace c).marker_sizes.getD 1 0

/-- Statement of the C7 property for a layer with no components: the width
falls back to the full span, no component block is produced, and the layer
still contributes exactly its one background bar. -/
def emptyLayerSpec (layer : LayerSpec) : Prop :=
  component_width layer.components.length = 8 ∧
  resolveComponents layer = [] ∧
  layerTraces layer = [Primitive.bgBar layer.name 10 layer.color] ∧
  (layerTraces layer).countP isBgBar = 1

/-- Statement of the C9 property for label index `i`: the label text is the
protocol of the i-th connection, the label y anchor is the destination layer
of that connection, the label x anchor is the connection anchor plus 0.2
(strictly to the right, hence a distinct point), and the emitted text
primitive carries exactly these label coordinates. -/
def labelPlacementSpec (i : ℕ) : Prop :=
  protocol_labels.getD i "" = (flow_connections.getD i default).protocol ∧
  y_label_pos.getD i "" = (flow_connections.getD i default).to_layer ∧
  x_label_pos.getD i 0 = (flow_connections.getD i default).x_pos + 2 / 10 ∧
  (flow_connections.getD i default).x_pos < x_label_pos.getD i 0 ∧
  x_label_pos.getD i 0 ≠ (flow_connections.getD i default).x_pos ∧
  (labelTraces protocol_labels x_label_pos y_label_pos).getD i (Primitive.textLabel 0 "" "")
    = Primitive.textLabel (x_label_pos.getD i 0) (y_label_pos.getD i "")
        (protocol_labels.getD i "")

/-- A two-layer input whose names collide, for exercising the duplicate-name
behaviour of the pipeline. -/
def dup_layers : List LayerSpec :=
  [⟨"A", ["x"], "c1"⟩, ⟨"A", ["y"], "c2"⟩]

/-- A connection between the duplicated name and itself. -/
def dup_conn : ConnectionSpec := ⟨"A", "A", "p", 5⟩

/-! ### Structural lemmas for the slot assignment -/

theorem y_positions_length (layers : List LayerSpec) :
    (y_positions layers).length = layers.length := by
  simp [y_positions]

theorem y_positions_getElem (layers : List LayerSpec) (i : ℕ) (h : i < layers.length) :
    (y_positions layers).get ⟨i, by simpa [y_positions] using h⟩
      = layers.length - 1 - i := by
  simp only [y_positions, List.get_eq_getElem]
  rw [List.getElem_reverse]
  simp

theorem buildSlots_length (layers : List LayerSpec) :
    (buildSlots layers).length = layers.length := by
  simp [buildSlots, y_positions]

theorem buildSlots_getElem (layers : List LayerSpec) (i : ℕ) (h : i < layers.length) :
    (buildSlots layers).get ⟨i, by simpa [buildSlots_length] using h⟩
      = ((layers.get ⟨i, h⟩).name, layers.length - 1 - i) := by
  have hy := y_positions_getElem layers i h
  simp only [buildSlots, List.get_eq_getElem, List.getElem_map, List.getElem_zip] at *
  rw [hy]

theorem buildSlots_map_fst (layers : List LayerSpec) :
    (buildSlots layers).map Prod.fst = layers.map LayerSpec.name := by
  have hlen : layers.length ≤ (y_positions layers).length := by
    simp [y_positions]
  unfold buildSlots
  calc ((layers.zip (y_positions layers)).map fun p => (p.1.name, p.2)).map Prod.fst
      = ((layers.zip (y_positions layers)).map Prod.fst).map LayerSpec.name := by
        rw [List.map_map, List.map_map]; rfl
    _ = layers.map LayerSpec.name := by rw [List.map_fst_zip _ _ hlen]

theorem buildSlots_map_snd (layers : List LayerSpec) :
    (buildSlots layers).map Prod.snd = (List.range layers.length).reverse := by
  have hlen : (y_positions layers).length ≤ layers.length := by
    simp [y_positions]
  unfold buildSlots
  calc ((layers.zip (y_positions layers)).map fun p => (p.1.name, p.2)).map Prod.snd
      = (layers.zip (y_positions layers)).map Prod.snd := by
        rw [List.map_map]; rfl
    _ = y_positions layers := List.map_snd_zip _ _ hlen
    _ = (List.range layers.length).reverse := rfl

/-- C1: for every non-empty list of layers with unique names, the slot
assignment maps layer names bijectively onto the display indices `[0, n-1]`,
with `displayIndex = n - 1 - declarationIndex`, so the first declared layer
gets the highest index and the last declared layer gets index `0`. -/
theorem C1_slot_assignment_bijection (layers : List LayerSpec)
    (hne : layers ≠ [])
    (hnodup : (layers.map LayerSpec.name).Nodup) :
    slotBijectionSpec layers := by
  have hlen := buildSlots_length layers
  refine ⟨buildSlots_map_fst layers, ?_, buildSlots_map_snd layers, ?_, ?_, ?_, ?_⟩
  · rw [buildSlots_map_fst]; exact hnodup
  · intro k
    rw [buildSlots_map_snd, List.mem_reverse, List.mem_range]
  · rw [buildSlots_map_snd]
    exact List.nodup_reverse.mpr (List.nodup_range _)
  · have hpos : 0 < layers.length := List.length_pos.mpr hne
    have hpos' : 0 < (buildSlots layers).length := by rwa [hlen]
    rw [List.head?_eq_getElem?, List.head?_eq_getElem?,
        List.getElem?_eq_getElem hpos', List.getElem?_eq_getElem hpos]
    have := buildSlots_getElem layers 0 hpos
    simp only [List.get_eq_getElem] at this
    simp [this]
  · have hpos : 0 < layers.length := List.length_pos.mpr hne
    have hidx : layers.length - 1 < layers.length := by omega
    have hidx' : (buildSlots layers).length - 1 < (buildSlots layers).length := by
      rw [hlen]; omega
    rw [List.getLast?_eq_getElem?, List.getLast?_eq_getElem?,
        List.getElem?_eq_getElem hidx', List.getElem?_eq_getElem hidx]
    have := buildSlots_getElem layers (layers.length - 1) hidx
    simp only [List.get_eq_getElem] at this
    have h0 : layers.length - 1 - (layers.length - 1) = 0 := by omega
    rw [h0] at this
    simp only [hlen] at *
    simp [this]

/-- Witness for C1 at the concrete layer list of the script. -/
theorem C1_witness :
    layers_data ≠ [] ∧ (layers_data.map LayerSpec.name).Nodup ∧
    slotBijectionSpec layers_data :=
  ⟨by decide, by decide,
    C1_slot_assignment_bijection layers_data (by decide) (by decide)⟩

/-! ### Connection resolution as filter-then-map -/

theorem resolveConnections_foldl (layers : List LayerSpec) (conns : List ConnectionSpec)
    (acc : List ConnectorTrace) :
    conns.foldl
        (fun acc c =>
          if resolvable (layers.map LayerSpec.name) c then acc ++ [connTrace c] else acc)
        acc
      = acc ++ (conns.filter (resolvable (layers.map LayerSpec.name))).map connTrace := by
  induction conns generalizing acc with
  | nil => simp
  | cons c cs ih =>
    simp only [List.foldl_cons, List.filter_cons]
    by_cases h : resolvable (layers.map LayerSpec.name) c
    · simp [h, ih]
    · simp [h, ih]

theorem resolveConnections_eq (layers : List LayerSpec) (conns : List ConnectionSpec) :
    resolveConnections layers conns
      = (conns.filter (resolvable (layers.map LayerSpec.name))).map connTrace := by
  simpa [resolveConnections] using resolveConnections_foldl layers conns []

/-- C2: a connection with a missing endpoint contributes zero geometry records
and raises no error, a connection with both endpoints declared contributes
exactly one record, and the output preserves input connection order: the
output is exactly the resolvable sublist, in order, mapped to its traces. -/
theorem C2_connection_skip_policy (layers : List LayerSpec) (conns : List ConnectionSpec) :
    resolveConnections layers conns
        = (conns.filter (resolvable (layers.map LayerSpec.name))).map connTrace ∧
    (resolveConnections layers conns).length
        = conns.countP (resolvable (layers.map LayerSpec.name)) ∧
    (∀ c : ConnectionSpec, resolvable (layers.map LayerSpec.name) c = false →
      resolveConnections layers [c] = []) ∧
    (∀ c : ConnectionSpec, resolvable (layers.map LayerSpec.name) c = true →
      resolveConnections layers [c] = [connTrace c]) := by
  refine ⟨resolveConnections_eq layers conns, ?_, ?_, ?_⟩
  · rw [resolveConnections_eq, List.length_map, ← List.countP_eq_length_filter]
  · intro c hc
    rw [resolveConnections_eq]
    simp [List.filter, hc]
  · intro c hc
    rw [resolveConnections_eq]
    simp [List.filter, hc]

/-- Witness for C2: a connection naming the undeclared layer Nope is skipped,
a fully declared connection yields exactly its one trace. -/
theorem C2_witness :
    resolveConnections layers_data [⟨"Nope", "Database", "X", 5⟩] = [] ∧
    resolveConnections layers_data [⟨"Client Apps", "Database", "X", 5⟩]
      = [connTrace ⟨"Client Apps", "Database", "X", 5⟩] :=
  ⟨(C2_connection_skip_policy layers_data []).2.2.1 _ (by decide),
   (C2_connection_skip_policy layers_data []).2.2.2 _ (by decide)⟩

/-- C8: the pipeline is deterministic and stateless; two runs on identical
inputs produce identical geometry output. -/
theorem C8_pipeline_deterministic (layers : List LayerSpec) (conns : List ConnectionSpec)
    (protocols : List String) (xs : List ℚ) (ys : List String) :
    (runPipelineTwice layers conns protocols xs ys).1
      = (runPipelineTwice layers conns protocols xs ys).2 := rfl

/-! ### Label output is independent of layers and connections -/

theorem labelTraces_all_text (protocols : List String) (xs : List ℚ) (ys : List String) :
    ∀ p ∈ labelTraces protocols xs ys, isTextLabel p = true := by
  intro p hp
  simp only [labelTraces, List.mem_map] at hp
  obtain ⟨q, _, rfl⟩ := hp
  rfl

theorem layerTraces_no_text (layer : LayerSpec) :
    ∀ p ∈ layerTraces layer, isTextLabel p = false := by
  intro p hp
  simp only [layerTraces, List.mem_cons, List.mem_map] at hp
  rcases hp with rfl | ⟨b, _, rfl⟩ <;> rfl

theorem pipeline_filter_textLabel (layers : List LayerSpec) (conns : List ConnectionSpec)
    (protocols : List String) (xs : List ℚ) (ys : List String) :
    (pipeline layers conns protocols xs ys).filter isTextLabel
      = labelTraces protocols xs ys := by
  unfold pipeline
  rw [List.filter_append, List.filter_append]
  have h1 : ((layers.map layerTraces).flatten).filter isTextLabel = [] := by
    rw [List.filter_eq_nil_iff]
    intro p hp
    simp only [List.mem_flatten, List.mem_map] at hp
    obtain ⟨l, ⟨layer, _, rfl⟩, hpl⟩ := hp
    simp [layerTraces_no_text layer p hpl]
  have h2 : ((resolveConnections layers conns).map Primitive.connector).filter
      isTextLabel = [] := by
    rw [List.filter_eq_nil_iff]
    intro p hp
    simp only [List.mem_map] at hp
    obtain ⟨t, _, rfl⟩ := hp
    simp [isTextLabel]
  have h3 : (labelTraces protocols xs ys).filter isTextLabel
      = labelTraces protocols xs ys :=
    List.filter_eq_self.mpr (labelTraces_all_text protocols xs ys)
  rw [h1, h2, h3]
  rfl

/-- C10: the emitted text-label primitives depend only on the label lists,
not on the layers or on connection resolution; two runs differing only in
layers and connections emit identical label output, which is always the full
label list. -/
theorem C10_labels_independent_of_resolution
    (layers1 layers2 : List LayerSpec) (conns1 conns2 : List ConnectionSpec)
    (protocols : List String) (xs : List ℚ) (ys : List String) :
    (pipeline layers1 conns1 protocols xs ys).filter isTextLabel
        = (pipeline layers2 conns2 protocols xs ys).filter isTextLabel ∧
    (pipeline layers1 conns1 protocols xs ys).filter isTextLabel
        = labelTraces protocols xs ys := by
  rw [pipeline_filter_textLabel, pipeline_filter_textLabel]
  exact ⟨rfl, rfl⟩

/-! ### Component block geometry -/

theorem sum_map_constQ {α : Type} (l : List α) (c : ℚ) :
    (l.map (fun _ => c)).sum = l.length * c := by
  induction l with
  | nil => simp
  | cons x xs ih =>
    simp only [List.map_cons, List.sum_cons, ih, List.length_cons]
    push_cast
    ring

theorem resolveComponents_length (layer : LayerSpec) :
    (resolveComponents layer).length = layer.components.length := by
  simp [resolveComponents]

theorem resolveComponents_getD (layer : LayerSpec) (j : ℕ)
    (h : j < layer.components.length) :
    (resolveComponents layer).getD j default
      = { component := layer.components.getD j ""
          layer := layer.name
          xStart := 1 + (j : ℚ) * component_width layer.components.length
              + component_width layer.components.length * (1 / 10)
          width := component_width layer.components.length * (8 / 10) } := by
  have hlen : j < (resolveComponents layer).length := by
    rwa [resolveComponents_length]
  rw [List.getD_eq_getElem _ _ hlen]
  simp only [resolveComponents, List.getElem_map, List.getElem_enum,
    ComponentBlock.mk.injEq]
  refine ⟨(List.getD_eq_getElem _ _ h).symm, ?_, ?_, ?_⟩ <;> first
    | trivial
    | ring

/-- C3: the slot width of a layer with `n` components is `8 / max(n, 1)`;
block `j` has drawn width 80% of the slot and left edge
`1 + j * slot + slot * 0.1`, i.e. 10% padding inside its equal share. -/
theorem C3_component_block_geometry (layer : LayerSpec) (j : ℕ)
    (h : j < layer.components.length) :
    componentBlockSpec layer j := by
  unfold componentBlockSpec
  rw [resolveComponents_getD layer j h]
  exact ⟨rfl, rfl, rfl, rfl, rfl⟩

/-- Witness for C3 at the first layer and first component of the script. -/
theorem C3_witness :
    0 < (layers_data.getD 0 default).components.length ∧
    componentBlockSpec (layers_data.getD 0 default) 0 :=
  ⟨by decide, C3_component_block_geometry (layers_data.getD 0 default) 0 (by decide)⟩

/-- C4: for a layer with at least one component the blocks follow component
declaration order, are strictly left-to-right with no overlap, stay inside the
span `[1, 9]` (the 8-unit span starting at offset 1), and their drawn widths
sum to at most 8. -/
theorem C4_block_layout (layer : LayerSpec) (hn : 1 ≤ layer.components.length) :
    blockLayoutSpec layer := by
  have hmax : max layer.components.length 1 = layer.components.length :=
    Nat.max_eq_left hn
  have hnQ : (0 : ℚ) < (layer.components.length : ℚ) := by exact_mod_cast hn
  have hne : ((layer.components.length : ℚ)) ≠ 0 := hnQ.ne'
  have hcw : component_width layer.components.length
      = 8 / (layer.components.length : ℚ) := by
    rw [component_width, hmax]
  have hcwpos : 0 < component_width layer.components.length := by
    rw [hcw]; positivity
  have hcwn : component_width layer.components.length
      * (layer.components.length : ℚ) = 8 := by
    rw [hcw]; field_simp
  refine ⟨?_, ?_, ?_, ?_⟩
  · simp only [resolveComponents, List.map_map]
    exact List.enum_map_snd _
  · intro j hj
    have hj1 : j + 1 < layer.components.length := by
      rwa [resolveComponents_length] at hj
    have hj0 : j < layer.components.length := by omega
    rw [resolveComponents_getD layer j hj0, resolveComponents_getD layer (j + 1) hj1]
    simp only
    push_cast
    nlinarith [hcwpos]
  · intro j hj
    have hj0 : j < layer.components.length := by
      rwa [resolveComponents_length] at hj
    rw [resolveComponents_getD layer j hj0]
    simp only
    constructor
    · have h1 : 0 ≤ (j : ℚ) * component_width layer.components.length :=
        mul_nonneg (Nat.cast_nonneg j) hcwpos.le
      nlinarith [hcwpos]
    · have hjn : (j : ℚ) + 1 ≤ (layer.components.length : ℚ) := by
        exact_mod_cast hj0
      nlinarith [mul_le_mul_of_nonneg_right hjn hcwpos.le, hcwn, hcwpos]
  · have hmap : (resolveComponents layer).map ComponentBlock.width
        = layer.components.enum.map
            (fun _ => component_width layer.components.length * (8 / 10)) := by
      simp only [resolveComponents, List.map_map]
      rfl
    rw [hmap, sum_map_constQ, List.enum_length]
    nlinarith [hcwn, hcwpos]

/-- Witness for C4 at the first layer of the script (three components). -/
theorem C4_witness :
    1 ≤ (layers_data.getD 0 default).components.length ∧
    blockLayoutSpec (layers_data.getD 0 default) :=
  ⟨by decide, C4_block_layout (layers_data.getD 0 default) (by decide)⟩

/-! ### Name lookup and connector geometry -/

theorem findIdx_of_mem (l : List String) (nm : String) (h : nm ∈ l) :
    ∃ i : ℕ, l.findIdx? (fun s => s = nm) = some i ∧ i < l.length
      ∧ l.getD i "" = nm := by
  induction l with
  | nil => simp at h
  | cons a as ih =>
    by_cases ha : a = nm
    · refine ⟨0, ?_, by simp, by simpa using ha⟩
      simp [List.findIdx?_cons, ha]
    · have h' : nm ∈ as := by
        rcases List.mem_cons.mp h with h1 | h1
        · exact absurd h1.symm ha
        · exact h1
      obtain ⟨i, hfind, hlt, hget⟩ := ih h'
      refine ⟨i + 1, ?_, by simpa using Nat.succ_lt_succ hlt, by simpa using hget⟩
      simp [List.findIdx?_cons, ha, hfind]

theorem name_mem_slots (layers : List LayerSpec) (nm : String)
    (h : nm ∈ layers.map LayerSpec.name) :
    ∃ r : ℕ, rowOf layers nm = some r ∧ (nm, r) ∈ buildSlots layers := by
  obtain ⟨i, hfind, hlt, hget⟩ := findIdx_of_mem _ nm h
  have hlt' : i < layers.length := by simpa using hlt
  refine ⟨layers.length - 1 - i, ?_, ?_⟩
  · simp [rowOf, hfind]
  · have hslot := buildSlots_getElem layers i hlt'
    have hname : (layers.get ⟨i, hlt'⟩).name = nm := by
      rw [List.getD_eq_getElem _ _ hlt] at hget
      simpa using hget
    rw [hname] at hslot
    rw [← hslot]
    exact List.get_mem _ _ _

/-- C5: a resolved connection emits a trace with two points at the same
caller-supplied anchor column, whose y values name the source and destination
layers (each holding a display row in the slot assignment), with a small
circle at the source end and a larger downward triangle at the destination
end. -/
theorem C5_connector_geometry (layers : List LayerSpec) (conns : List ConnectionSpec)
    (c : ConnectionSpec) (hc : c ∈ conns)
    (hf : c.from_layer ∈ layers.map LayerSpec.name)
    (ht : c.to_layer ∈ layers.map LayerSpec.name) :
    connectorGeometrySpec layers conns c := by
  have hres : resolvable (layers.map LayerSpec.name) c = true := by
    simp [resolvable, List.contains, hf, ht]
  refine ⟨?_, rfl, rfl, name_mem_slots layers _ hf, name_mem_slots layers _ ht,
    rfl, rfl, by norm_num [connTrace]⟩
  rw [resolveConnections_eq]
  exact List.mem_map_of_mem _ (List.mem_filter.mpr ⟨hc, hres⟩)

/-- Witness for C5 at the first connection of the script. -/
theorem C5_witness :
    flow_connections.getD 0 default ∈ flow_connections ∧
    (flow_connections.getD 0 default).from_layer ∈ layers_data.map LayerSpec.name ∧
    (flow_connections.getD 0 default).to_layer ∈ layers_data.map LayerSpec.name ∧
    connectorGeometrySpec layers_data flow_connections (flow_connections.getD 0 default) :=
  ⟨by simp [flow_connections], by decide, by decide,
    C5_connector_geometry layers_data flow_connections _ (by simp [flow_connections])
      (by decide) (by decide)⟩

/-! ### Duplicate layer names are tolerated, not rejected -/

/-- C6 (counterexample to the claim as stated): on an input with two layers
both named A the pipeline raises nothing and completes normally: it returns
output (two background bars, one per declared layer), the self-connection on
the duplicated name resolves to one trace, and lookups resolve the duplicated
name to its first declaration (row 1 of 2). No DuplicateLayerError exists in
the code. -/
theorem C6_counterexample :
    ¬ (dup_layers.map LayerSpec.name).Nodup ∧
    (pipeline dup_layers [dup_conn] [] [] []).countP isBgBar = 2 ∧
    resolveConnections dup_layers [dup_conn] = [connTrace dup_conn] ∧
    rowOf dup_layers "A" = some 1 := by
  refine ⟨by decide, by decide, by decide, by decide⟩

theorem countP_map_none {β : Type} (f : β → Primitive) (l : List β)
    (hf : ∀ b, isBgBar (f b) = false) :
    (l.map f).countP isBgBar = 0 := by
  induction l with
  | nil => simp
  | cons b bs ih => simp [List.countP_cons, hf, ih]

theorem layerTraces_countP_bg (layer : LayerSpec) :
    (layerTraces layer).countP isBgBar = 1 := by
  unfold layerTraces
  rw [List.countP_cons,
    countP_map_none (fun b => Primitive.compBar b layer.color) _ (fun b => rfl)]
  rfl

theorem flatten_countP_bg (layers : List LayerSpec) :
    ((layers.map layerTraces).flatten).countP isBgBar = layers.length := by
  induction layers with
  | nil => simp
  | cons l ls ih =>
    simp only [List.map_cons, List.flatten_cons, List.countP_append, ih,
      layerTraces_countP_bg, List.length_cons]
    omega

/-- C6 (amended): duplicate layer names are a documented caller error but the
code performs no uniqueness check and raises no error: the pipeline always
completes, emitting exactly one background bar per declared layer (duplicates
included), and name lookups resolve to the first declared occurrence. -/
theorem C6_no_duplicate_check (layers : List LayerSpec) (conns : List ConnectionSpec)
    (protocols : List String) (xs : List ℚ) (ys : List String) :
    (pipeline layers conns protocols xs ys).countP isBgBar = layers.length ∧
    ∀ (l : LayerSpec) (rest : List LayerSpec),
      rowOf (l :: rest) l.name = some rest.length := by
  constructor
  · unfold pipeline
    rw [List.countP_append, List.countP_append]
    have h2 : ((resolveConnections layers conns).map Primitive.connector).countP
        isBgBar = 0 := countP_map_none Primitive.connector _ (fun t => rfl)
    have h3 : (labelTraces protocols xs ys).countP isBgBar = 0 := by
      unfold labelTraces
      exact countP_map_none _ _ (fun p => rfl)
    rw [flatten_countP_bg, h2, h3]
    omega
  · intro l rest
    simp [rowOf, List.findIdx?_cons]

/-! ### Zero-component layers -/

/-- C7: for a layer with zero components the width computation treats the
count as 1 (the width is positive for every count, so no division-by-zero
degeneracy), zero component blocks are emitted, and the layer still emits
exactly one background bar. -/
theorem C7_zero_components (layer : LayerSpec) (h : layer.components = []) :
    emptyLayerSpec layer ∧ ∀ n : ℕ, 0 < component_width n := by
  constructor
  · have h2 : resolveComponents layer = [] := by
      simp [resolveComponents, h]
    have h3 : layerTraces layer = [Primitive.bgBar layer.name 10 layer.color] := by
      simp [layerTraces, h2]
    refine ⟨?_, h2, h3, ?_⟩
    · rw [component_width, h]
      norm_num
    · rw [h3]
      rfl
  · intro n
    have h1 : (0 : ℚ) < ((max n 1 : ℕ) : ℚ) := by
      have hm : 0 < max n 1 := Nat.lt_of_lt_of_le Nat.zero_lt_one (Nat.le_max_right n 1)
      exact_mod_cast hm
    rw [component_width]
    exact div_pos (by norm_num) h1

/-- Witness for C7 at a concrete zero-component layer. -/
theorem C7_witness :
    (⟨"Empty", [], "#FFFFFF"⟩ : LayerSpec).components = [] ∧
    emptyLayerSpec ⟨"Empty", [], "#FFFFFF"⟩ ∧
    (0 : ℚ) < component_width 0 :=
  ⟨rfl, (C7_zero_components ⟨"Empty", [], "#FFFFFF"⟩ rfl).1,
    (C7_zero_components ⟨"Empty", [], "#FFFFFF"⟩ rfl).2 0⟩

/-! ### Protocol label placement -/

/-- C9: each protocol label of the script is anchored at its own point, with
y the destination layer of the corresponding connection and x exactly 0.2 to
the right of the connector anchor column (hence a distinct anchor point). -/
theorem C9_label_offset (i : ℕ) (h : i < flow_connections.length) :
    labelPlacementSpec i := by
  have h6 : i < 6 := h
  interval_cases i <;>
    exact ⟨rfl, rfl, by norm_num [x_label_pos, flow_connections],
      by norm_num [x_label_pos, flow_connections],
      by norm_num [x_label_pos, flow_connections], rfl⟩

/-- Witness for C9 at the first label. -/
theorem C9_witness : 0 < flow_connections.length ∧ labelPlacementSpec 0 :=
  ⟨by decide, C9_label_offset 0 (by decide)⟩
